import Mathlib

/-!
Shallow embedding of the ion-hash-test-driver corpus generator
(`ionhashtest/test_data.py`) and digest consistency classifier
(`ionhashtest/ion_hash_test_driver.py`).

Modelling conventions: Python strings are Lean `String`s (operated on via
their character lists); byte strings are `List Nat` with entries below 256;
Python's `None`-able booleans are `Option Bool`; an open digest file is the
list of its lines, read sequentially, with reads past the end yielding the
empty string exactly as `file.readline()` does.
-/

namespace IonHashTestDriver

/-- The backslash character. -/
def bslashChar : Char := Char.ofNat 92

/-- The single-quote character. -/
def squoteChar : Char := Char.ofNat 39

/-- The double-quote character. -/
def dquoteChar : Char := Char.ofNat 34

/-- Python `s.replace(old, new)` for a single-character pattern `old`:
every occurrence of the character `old` in `s` is replaced by `new`.
Occurrences of a one-character pattern cannot overlap, so this is exactly
`str.replace` for the patterns the source uses (backslash and quotes). -/
def escSeq (s : String) (old : Char) (new : String) : String :=
  String.mk ((s.data.map (fun c => if c = old then new.data else [c])).flatten)

/-- Whether `pat` is an initial segment of the second list. -/
def listStartsWith : List Char → List Char → Bool
  | [], _ => true
  | _ :: _, [] => false
  | p :: ps, c :: cs => p == c && listStartsWith ps cs

/-- Whether `pat` occurs as a contiguous run inside the second list. -/
def listHasSub (pat : List Char) : List Char → Bool
  | [] => pat.isEmpty
  | l@(_ :: rest) => listStartsWith pat l || listHasSub pat rest

/-- Python `sub in s` (substring containment). -/
def strContains (s sub : String) : Bool := listHasSub sub.data s.data

/-- Python `s.startswith(p)`. -/
def strStartsWith (s p : String) : Bool := listStartsWith p.data s.data

/-- UTF-8 encoding of one code point, as a list of bytes. -/
def utf8Char (c : Char) : List Nat :=
  let n := c.toNat
  if n < 128 then [n]
  else if n < 2048 then [192 + n / 64, 128 + n % 64]
  else if n < 65536 then [224 + n / 4096, 128 + n / 64 % 64, 128 + n % 64]
  else [240 + n / 262144, 128 + n / 4096 % 64, 128 + n / 64 % 64, 128 + n % 64]

/-- Python `s.encode('utf-8')` as a byte list. -/
def utf8Encode (s : String) : List Nat := (s.data.map utf8Char).flatten

/-- The base64 alphabet, in index order. -/
def base64Alphabet : List Char :=
  "ABCDEFGHIJKLMNOPQRSTUVWXYZabcdefghijklmnopqrstuvwxyz0123456789+/".data

/-- The base64 digit for a 6-bit group. -/
def base64Digit (n : Nat) : Char := base64Alphabet.getD n (Char.ofNat 65)

/-- The base64 padding character. -/
def base64Pad : Char := Char.ofNat 61

/-- Standard base64 (RFC 4648) of a byte list, as computed by Python
`base64.b64encode`: three input bytes become four alphabet characters,
with a final one- or two-byte group padded by one or two pad characters. -/
def base64Encode : List Nat → List Char
  | [] => []
  | [a] => [base64Digit (a / 4), base64Digit (a % 4 * 16), base64Pad, base64Pad]
  | [a, b] => [base64Digit (a / 4), base64Digit (a % 4 * 16 + b / 16), base64Digit (b % 16 * 4), base64Pad]
  | a :: b :: c :: rest =>
      base64Digit (a / 4) :: base64Digit (a % 4 * 16 + b / 16)
        :: base64Digit (b % 16 * 4 + c / 64) :: base64Digit (c % 64) :: base64Encode rest

/-- A lowercase hexadecimal digit. -/
def hexDigit (n : Nat) : Char := if n < 10 then Char.ofNat (48 + n) else Char.ofNat (87 + n)

/-- Python `'\x{0:x}'.format(b)` for a byte `b`: a backslash-x escape with
the unpadded lowercase hex digits of `b`. -/
def hexEscape (b : Nat) : List Char :=
  [bslashChar, Char.ofNat 120] ++ (if b < 16 then [hexDigit b] else [hexDigit (b / 16), hexDigit (b % 16)])

/-- The marker stripped from seed lines known to be valid Ion
(`_ion_prefix` in the source). -/
def ionMarker : String := "ion::"

/-- The marker stripped from seed lines known to be invalid Ion
(`_invalid_ion_prefix` in the source). -/
def invalidIonMarker : String := "invalid_ion::"

/-- `_TestValue`: the seed text together with its validity tri-state
(`None` / `True` / `False` in the source). -/
structure TestValue where
  ion : String
  valid_ion : Option Bool
deriving DecidableEq

/-- `_TestValue.__init__`: the two marker checks run in sequence on the
progressively stripped text, exactly as in the source. -/
def mkTestValue (s : String) : TestValue :=
  let v1 : TestValue := { ion := s, valid_ion := none }
  let v2 := if strStartsWith v1.ion ionMarker then
      ({ ion := v1.ion.drop ionMarker.length, valid_ion := some true } : TestValue)
    else v1
  if strStartsWith v2.ion invalidIonMarker then
    ({ ion := v2.ion.drop invalidIonMarker.length, valid_ion := some false } : TestValue)
  else v2

/-- `_TestValue.symbol`: escape backslash, then single-quote, and wrap in
single quotes. -/
def TestValue.symbol (tv : TestValue) : String :=
  String.singleton squoteChar ++
    escSeq (escSeq tv.ion bslashChar (String.mk [bslashChar, bslashChar]))
      squoteChar (String.mk [bslashChar, squoteChar]) ++
    String.singleton squoteChar

/-- `_TestValue.string`: escape backslash, then double-quote, and wrap in
double quotes. -/
def TestValue.string (tv : TestValue) : String :=
  String.singleton dquoteChar ++
    escSeq (escSeq tv.ion bslashChar (String.mk [bslashChar, bslashChar]))
      dquoteChar (String.mk [bslashChar, dquoteChar]) ++
    String.singleton dquoteChar

/-- `_TestValue.long_string`: escape backslash, then single-quote, and wrap
in triple quotes. -/
def TestValue.long_string (tv : TestValue) : String :=
  let q3 := String.mk [squoteChar, squoteChar, squoteChar]
  q3 ++ escSeq (escSeq tv.ion bslashChar (String.mk [bslashChar, bslashChar]))
      squoteChar (String.mk [bslashChar, squoteChar]) ++ q3

/-- `_TestValue.clob`: take the UTF-8 bytes of the double-quoted string
form; bytes at or above 128 become backslash-x hex escapes, other bytes
stay as characters; wrap in double braces. -/
def TestValue.clob (tv : TestValue) : String :=
  let s := tv.string
  "\x7b\x7b" ++
    String.mk (((utf8Encode s).map (fun b => if 128 ≤ b then hexEscape b else [Char.ofNat b])).flatten) ++
    "\x7d\x7d"

/-- `_TestValue.blob`: base64 of the UTF-8 bytes of the raw seed text,
wrapped in double braces. -/
def TestValue.blob (tv : TestValue) : String :=
  "\x7b\x7b" ++ String.mk (base64Encode (utf8Encode tv.ion)) ++ "\x7d\x7d"

/-- The one-field struct shape `test_strings_for` builds repeatedly:
annotation, then a struct literal with one symbol-quoted field name mapped
to `inner`. -/
def structVariant (tv : TestValue) (inner : String) : String :=
  tv.symbol ++ "::\x7b" ++ tv.symbol ++ ":" ++ inner ++ "\x7d"

/-- The list-literal variant from `test_strings_for` (note the trailing
comma-space slot that holds the raw text only when the seed is known
valid, and is otherwise empty). -/
def listVariant (tv : TestValue) : String :=
  tv.symbol ++ "::[" ++ tv.symbol ++ ", " ++ tv.string ++ ", " ++ tv.long_string ++ ", "
    ++ tv.clob ++ ", " ++ tv.blob ++ ", "
    ++ (if tv.valid_ion = some true then tv.ion else "") ++ "]"

/-- The parenthesized-sequence variant from `test_strings_for`. -/
def sexpVariant (tv : TestValue) : String :=
  tv.symbol ++ "::(" ++ tv.symbol ++ " " ++ tv.string ++ " " ++ tv.long_string ++ " "
    ++ tv.clob ++ " " ++ tv.blob ++ " "
    ++ (if tv.valid_ion = some true then tv.ion else "") ++ ")"

/-- `test_strings_for`: the fixed-order variant list for one seed line.
The `valid_ion` guard embeds Python truthiness of the tri-state flag: only
`True` (here `some true`) enables the four raw-form variants. -/
def test_strings_for (line : String) : List String :=
  let tv := mkTestValue line
  [tv.symbol, tv.string, tv.long_string, tv.clob, tv.blob]
  ++ [tv.symbol ++ "::" ++ tv.symbol, tv.symbol ++ "::" ++ tv.string,
      tv.symbol ++ "::" ++ tv.long_string, tv.symbol ++ "::" ++ tv.clob,
      tv.symbol ++ "::" ++ tv.blob]
  ++ [structVariant tv tv.symbol, structVariant tv tv.string, structVariant tv tv.long_string,
      structVariant tv tv.clob, structVariant tv tv.blob]
  ++ (if tv.valid_ion = some true then
        [tv.ion, tv.symbol ++ "::" ++ tv.ion,
         structVariant tv tv.ion,
         structVariant tv (tv.symbol ++ "::" ++ tv.ion)]
      else [])
  ++ [listVariant tv, sexpVariant tv,
      tv.symbol ++ "::" ++ tv.symbol ++ "::" ++ tv.symbol ++ "::" ++ tv.string]

/-! ## Corpus builder pipelines (`test_data.py`) -/

/-- One entry of the structured test-definition corpus
(`ion_hash_test.ion`): an optional inline Ion value (field `'ion'`) and an
optional literal byte sequence (field `'10n'`, here `bytes10n`). The Ion
value type is abstract; the pipeline only renders it through the supplied
serializers. -/
structure StructTest (α : Type) where
  ion : Option α
  bytes10n : Option (List Nat)

/-- The loop body of `generate_tests_ion_hash_tests` for one test
definition: an inline value is rendered to text (`ion.dumps(..., binary=False,
omit_version_marker=True)`); if the text contains `$0` the value is skipped
entirely, otherwise the text line and the binary rendering are emitted; a
`'10n'` byte sequence is appended to the binary stream only. -/
def structEmit {α : Type} (dumpsText : α → String) (dumpsBin : α → List Nat)
    (t : StructTest α) : List String × List (List Nat) :=
  let ionPart : List String × List (List Nat) :=
    match t.ion with
    | some v =>
        let tt := dumpsText v
        if strContains tt "$0" then ([], []) else ([tt], [dumpsBin v])
    | none => ([], [])
  (ionPart.1, ionPart.2 ++ t.bytes10n.toList)

/-- Append the text lines and binary chunks of `out` to the accumulated
streams `acc` (file appends in the source). -/
def appendPair (acc out : List String × List (List Nat)) : List String × List (List Nat) :=
  (acc.1 ++ out.1, acc.2 ++ out.2)

/-- `generate_tests_ion_hash_tests`, restricted to the stream contents it
writes: the text lines of `ion_hash_tests.ion` and the binary chunks of
`ion_hash_tests.10n`, accumulated over the test definitions in order. -/
def generate_tests_ion_hash_tests {α : Type} (dumpsText : α → String)
    (dumpsBin : α → List Nat) (tests : List (StructTest α)) :
    List String × List (List Nat) :=
  tests.foldl (fun acc t => appendPair acc (structEmit dumpsText dumpsBin t)) ([], [])

/-- Python `line.rstrip('\n')`: drop trailing newline characters. -/
def rstripNl (s : String) : String :=
  String.mk ((s.data.reverse.dropWhile (fun c => c = Char.ofNat 10)).reverse)

/-- The skip condition of the raw-string pipeline, with Python's
short-circuit `line == '' or line[0] == '#' or line.startswith(...)`. -/
def rawSkipped (line : String) : Bool :=
  decide (line = "")
  || (match line.data with
      | [] => false
      | c :: _ => decide (c = Char.ofNat 35))
  || strStartsWith line invalidIonMarker

/-- The inner-loop body of `generate_tests_big_list_of_naughty_strings`
for one generated variant: a variant containing `$0` is dropped from both
streams; otherwise the text line and `ion.dumps(test_text, binary=True)`
are emitted (the serializer is passed in as `dumpsBinStr`). -/
def variantEmit (dumpsBinStr : String → List Nat) (t : String) :
    List String × List (List Nat) :=
  if strContains t "$0" then ([], []) else ([t], [dumpsBinStr t])

/-- `generate_tests_big_list_of_naughty_strings`, restricted to the stream
contents it writes: seed lines are newline-stripped; blank, comment and
deliberately-invalid lines are skipped; each surviving line is expanded by
`test_strings_for` and each variant emitted through `variantEmit`. -/
def generate_tests_big_list_of_naughty_strings (dumpsBinStr : String → List Nat)
    (rawLines : List String) : List String × List (List Nat) :=
  let lines := rawLines.map rstripNl
  lines.foldl (fun acc line =>
    if rawSkipped line then acc
    else (test_strings_for line).foldl
      (fun acc2 t => appendPair acc2 (variantEmit dumpsBinStr t)) acc) ([], [])

/-- The file-name pair returned by the structured pipeline
(`os.path.join(out_dir, ...)` modelled as slash concatenation). -/
def ionHashTestsFileNames (outDir : String) : List String :=
  [outDir ++ "/ion_hash_tests.ion", outDir ++ "/ion_hash_tests.10n"]

/-- The file-name pair returned by the raw-string pipeline. -/
def naughtyFileNames (outDir : String) : List String :=
  [outDir ++ "/big_list_of_naughty_strings.ion", outDir ++ "/big_list_of_naughty_strings.10n"]

/-- `generate_tests`, restricted to the list of file names it returns: each
pipeline contributes its two paths when its source name occurs in
`test_files`, and both pipelines contribute when `test_files` is empty. -/
def generate_tests (outDir : String) (test_files : List String) : List String :=
  let files : List String := []
  let files := if "ion_hash_test.ion" ∈ test_files
    then files ++ ionHashTestsFileNames outDir else files
  let files := if "big_list_of_naughty_strings.txt" ∈ test_files
    then files ++ naughtyFileNames outDir else files
  if test_files.length = 0
  then files ++ ionHashTestsFileNames outDir ++ naughtyFileNames outDir
  else files

/-! ## Consistency classifier (`ion_hash_test_driver.py`) -/

/-- Whether a character is (ASCII) whitespace, the character class stripped
by Python `str.rstrip()` for the ASCII digest lines handled here. -/
def isPyWhitespace (c : Char) : Bool :=
  c.toNat = 32 || c.toNat = 9 || c.toNat = 10 || c.toNat = 11 || c.toNat = 12 || c.toNat = 13

/-- Python `s.rstrip()`: drop trailing whitespace. -/
def rstrip (s : String) : String :=
  String.mk ((s.data.reverse.dropWhile isPyWhitespace).reverse)

/-- The per-line normalization in `compare_digests`: strip trailing
whitespace; a line starting with `[unable to digest` collapses to the
exact sentinel `[unable to digest]`; any other line stands as itself. -/
def normalizeDigest (line : String) : String :=
  let digest := rstrip line
  if strStartsWith digest "[unable to digest" then "[unable to digest]" else digest

/-- The distinct values of a list, in first-seen order: the model of
Python `set(...)` used for the classifier's cardinality test. -/
def distinctVals (l : List String) : List String :=
  l.foldl (fun acc v => if acc.contains v then acc else acc ++ [v]) []

/-- One record of the `tests` list in the report: the optional `digest`
key, the optional `digests` key and the `result` symbol. -/
structure DigestComparison where
  digest : Option String
  digests : Option (List (String × String))
  result : String
deriving DecidableEq

/-- `compare_digests`, given the digest line each implementation produced
for the current test value (name, raw line): normalize every line, take the
set of distinct values and classify by its size. -/
def compare_digests (rows : List (String × String)) : DigestComparison :=
  let digests := rows.map (fun p => (p.1, normalizeDigest p.2))
  let digestSet := distinctVals (digests.map (fun p => p.2))
  if digestSet.length = 0 then
    { digest := none, digests := none, result := "no_comparison" }
  else if digestSet.length = 1 then
    { digest := digestSet.head?, digests := none, result := "consistent" }
  else
    { digest := none, digests := some digests, result := "inconsistent" }

/-- Python `file.readline()` semantics for the i-th sequential read from a
digest file: line `i` when it exists, the empty string past end-of-file. -/
def readLineAt (lines : List String) (i : Nat) : String := lines.getD i ""

/-- The implementation→line rows built for the test value at ordinal `i`:
one `readline()` from every implementation's digest file. -/
def rowsAt (hashFiles : List (String × List String)) (i : Nat) : List (String × String) :=
  hashFiles.map (fun p => (p.1, readLineAt p.2 i))

/-- The inputs `generate_results` consumes for one corpus file: the number
of test values decoded from the corpus, and each implementation's digest
file as its list of lines. -/
structure FileData where
  numTests : Nat
  hashFiles : List (String × List String)

/-- The classification of every test value of one corpus file, in corpus
order. -/
def fileResults (fd : FileData) : List String :=
  (List.range fd.numTests).map (fun i => (compare_digests (rowsAt fd.hashFiles i)).result)

/-- `defaultdict(int)` increment `d[k] += 1`, on an insertion-ordered
association list. -/
def bump (d : List (String × Nat)) (k : String) : List (String × Nat) :=
  match d with
  | [] => [(k, 1)]
  | (k2, v) :: rest => if k2 = k then (k, v + 1) :: rest else (k2, v) :: bump rest k

/-- Dictionary lookup with the `defaultdict(int)` default. -/
def dictGet (d : List (String × Nat)) (k : String) : Nat :=
  match d with
  | [] => 0
  | (k2, v) :: rest => if k2 = k then v else dictGet rest k

/-- `sum([cnt for cnt in d.values()])`. -/
def sumVals (d : List (String × Nat)) : Nat := (d.map (fun p => p.2)).sum

/-- The `file_counters` dictionary after one corpus file's loop. -/
def fileCounters (fd : FileData) : List (String × Nat) :=
  (fileResults fd).foldl bump []

/-- The `file_summary` dictionary: each counter keyed as
`digest_<classification>`, then the `test_count` total. -/
def fileSummary (fd : FileData) : List (String × Nat) :=
  (fileCounters fd).map (fun p => ("digest_" ++ p.1, p.2))
    ++ [("test_count", sumVals (fileCounters fd))]

/-- The run-wide `counters` dictionary: the same bumps as the per-file
loops, accumulated across all corpus files in order. -/
def grandCounters (files : List FileData) : List (String × Nat) :=
  files.foldl (fun acc fd => (fileResults fd).foldl bump acc) []

/-- The grand `summary` dictionary of the report. -/
def grandSummary (files : List FileData) : List (String × Nat) :=
  (grandCounters files).map (fun p => ("digest_" ++ p.1, p.2))
    ++ [("test_count", sumVals (grandCounters files))]

/-! ## Model of the third-party Ion serializer for the refinement claim -/

/-- A fragment of the Ion data model, sufficient to distinguish the value
a variant's text denotes from the variant's text taken as a string value. -/
inductive IonVal where
  | string : String → IonVal
  | symbol : String → IonVal
deriving DecidableEq

/-- Modelled from the Ion text notation implemented by the `amazon.ion`
library (not part of this repository): a single-quoted token denotes a
symbol whose name is the quoted text; other strings are read here as plain
string values (sufficient for the inputs this development evaluates). -/
def modelLoads (s : String) : IonVal :=
  match s.data with
  | [] => IonVal.string s
  | c :: rest =>
      if c = squoteChar ∧ s.data.getLast? = some squoteChar ∧ 2 ≤ s.data.length
      then IonVal.symbol (String.mk rest.dropLast)
      else IonVal.string s

/-- Modelled from the Ion binary encoding emitted by `amazon.ion`
(not part of this repository): type code 7 tags a symbol, type code 8 tags
a string, each followed by the UTF-8 bytes of the text (length fields and
symbol-table indirection are abstracted away; only the type distinction
matters here). -/
def modelDumpsBin : IonVal → List Nat
  | IonVal.symbol s => 112 :: utf8Encode s
  | IonVal.string s => 128 :: utf8Encode s

/-- `ion.dumps(test_text, binary=True)` for a Python `str` argument: the
library serializes the string itself as an Ion string value. -/
def modelStrDump (t : String) : List Nat := modelDumpsBin (IonVal.string t)

/-- The retained, sentinel-filtered variant lines of the raw-string
pipeline, in emission order (derived characterization of the nested loop
in `generate_tests_big_list_of_naughty_strings`). -/
def naughtyTextLines (rawLines : List String) : List String :=
  (((rawLines.map rstripNl).filter (fun l => !rawSkipped l)).map
    (fun l => (test_strings_for l).filter (fun t => !strContains t "$0"))).flatten

/-! ## Spec-side description of the variant sequence (for claim C6)

These definitions are transcribed from the specification's wording, to be
compared with `test_strings_for` as translated from the source. -/

/-- Transcribed from the spec: the five base encodings, in order
quoted-symbol, quoted-string, triple-quoted long-string, clob, blob. -/
def specBaseEncodings (tv : TestValue) : List String :=
  [tv.symbol, tv.string, tv.long_string, tv.clob, tv.blob]

/-- Transcribed from the spec: a symbol-quoted annotation before each of
the five base encodings. -/
def specAnnotatedFive (tv : TestValue) : List String :=
  (specBaseEncodings tv).map (fun e => tv.symbol ++ "::" ++ e)

/-- Transcribed from the spec: the five one-field-struct variants. -/
def specStructFive (tv : TestValue) : List String :=
  (specBaseEncodings tv).map (fun e => structVariant tv e)

/-- Transcribed from the spec: the four raw forms emitted exactly when the
seed is known valid — raw as-is, annotated raw, struct-embedded raw, and
struct-embedded raw with an inner annotated value. -/
def specRawForms (tv : TestValue) : List String :=
  [tv.ion, tv.symbol ++ "::" ++ tv.ion, structVariant tv tv.ion,
   structVariant tv (tv.symbol ++ "::" ++ tv.ion)]

/-- Transcribed from the spec: the full fixed-order variant sequence,
ending in the list literal, the parenthesized sequence, and the
triple-annotated quoted-string. -/
def specVariantSequence (s : String) : List String :=
  let tv := mkTestValue s
  specBaseEncodings tv ++ specAnnotatedFive tv ++ specStructFive tv
  ++ (if tv.valid_ion = some true then specRawForms tv else [])
  ++ [listVariant tv, sexpVariant tv,
      tv.symbol ++ "::" ++ tv.symbol ++ "::" ++ tv.symbol ++ "::" ++ tv.string]

/-! ## Helper lemmas -/

lemma strDataAppend (a b : String) : (a ++ b).data = a.data ++ b.data := by
  cases a
  cases b
  rfl

lemma strExt {a b : String} (h : a.data = b.data) : a = b := by
  cases a
  cases b
  exact congrArg String.mk h

lemma string_append_cancel (p a b : String) : p ++ a = p ++ b ↔ a = b := by
  constructor
  · intro h
    have hd := congrArg String.data h
    rw [strDataAppend, strDataAppend] at hd
    exact strExt (List.append_cancel_left hd)
  · intro h
    rw [h]

lemma digestKey_ne_testCount (x : String) : ("digest_" ++ x) ≠ "test_count" := by
  intro h
  have h1 : ("digest_" ++ x).data.head? = some (Char.ofNat 100) := by
    rw [strDataAppend]
    rfl
  rw [h] at h1
  exact absurd h1 (by decide)

lemma dictGet_bump (d : List (String × Nat)) (k c : String) :
    dictGet (bump d k) c = dictGet d c + (if c = k then 1 else 0) := by
  induction d with
  | nil =>
    simp only [bump, dictGet]
    by_cases h : k = c
    · subst h
      simp
    · rw [if_neg h, if_neg (fun hc => h hc.symm)]
  | cons p rest ih =>
    obtain ⟨k2, v⟩ := p
    simp only [bump]
    by_cases h : k2 = k
    · subst h
      rw [if_pos rfl]
      simp only [dictGet]
      by_cases hc : k2 = c
      · subst hc
        simp
      · rw [if_neg hc, if_neg hc, if_neg (fun hck : c = k2 => hc hck.symm)]
        simp
    · rw [if_neg h]
      simp only [dictGet]
      by_cases hc : k2 = c
      · rw [if_pos hc, if_pos hc, if_neg (fun hck : c = k => h (hc.trans hck))]
        simp
      · rw [if_neg hc, if_neg hc, ih]

lemma sumVals_bump (d : List (String × Nat)) (k : String) :
    sumVals (bump d k) = sumVals d + 1 := by
  induction d with
  | nil => simp [bump, sumVals]
  | cons p rest ih =>
    obtain ⟨k2, v⟩ := p
    by_cases h : k2 = k <;> simp [bump, h, sumVals] at ih ⊢ <;> omega

lemma dictGet_foldl_bump (rs : List String) :
    ∀ (d : List (String × Nat)) (c : String),
      dictGet (rs.foldl bump d) c = dictGet d c + rs.count c := by
  induction rs with
  | nil => simp
  | cons r rs ih =>
    intro d c
    rw [List.foldl_cons, ih, dictGet_bump, List.count_cons]
    by_cases h : c = r
    · subst h
      simp
      omega
    · have hb : (r == c) = false := beq_eq_false_iff_ne.2 (fun hh => h hh.symm)
      rw [hb, if_neg h]
      simp

lemma sumVals_foldl_bump (rs : List String) :
    ∀ d : List (String × Nat), sumVals (rs.foldl bump d) = sumVals d + rs.length := by
  induction rs with
  | nil => simp
  | cons r rs ih =>
    intro d
    rw [List.foldl_cons, ih, sumVals_bump]
    simp
    omega

lemma dictGet_grand_fold (files : List FileData) :
    ∀ (d : List (String × Nat)) (c : String),
      dictGet (files.foldl (fun acc fd => (fileResults fd).foldl bump acc) d) c
        = dictGet d c + (files.map (fun fd => (fileResults fd).count c)).sum := by
  induction files with
  | nil => simp
  | cons fd fs ih =>
    intro d c
    rw [List.foldl_cons, ih, dictGet_foldl_bump]
    simp
    omega

lemma sumVals_grand_fold (files : List FileData) :
    ∀ d : List (String × Nat),
      sumVals (files.foldl (fun acc fd => (fileResults fd).foldl bump acc) d)
        = sumVals d + (files.map (fun fd => (fileResults fd).length)).sum := by
  induction files with
  | nil => simp
  | cons fd fs ih =>
    intro d
    rw [List.foldl_cons, ih, sumVals_foldl_bump]
    simp
    omega

lemma dictGet_digestMap (d : List (String × Nat)) (c : String) :
    dictGet (d.map (fun p => ("digest_" ++ p.1, p.2))) ("digest_" ++ c) = dictGet d c := by
  induction d with
  | nil => rfl
  | cons p rest ih =>
    obtain ⟨k, v⟩ := p
    simp only [List.map_cons, dictGet]
    by_cases h : k = c
    · subst h
      simp
    · rw [if_neg (fun hh => h ((string_append_cancel _ _ _).1 hh)), if_neg h, ih]

lemma dictGet_append_ne (A : List (String × Nat)) (t : String) (v : Nat) (k : String)
    (h : t ≠ k) : dictGet (A ++ [(t, v)]) k = dictGet A k := by
  induction A with
  | nil => simp [dictGet, h]
  | cons p rest ih =>
    obtain ⟨k2, v2⟩ := p
    by_cases h2 : k2 = k <;> simp [dictGet, h2, ih]

lemma dictGet_append_self (A : List (String × Nat)) (k : String) (v : Nat)
    (h : ∀ p ∈ A, p.1 ≠ k) : dictGet (A ++ [(k, v)]) k = v := by
  induction A with
  | nil => simp [dictGet]
  | cons p rest ih =>
    obtain ⟨k2, v2⟩ := p
    have hk2 : k2 ≠ k := h (k2, v2) (by simp)
    simp only [List.cons_append, dictGet, if_neg hk2]
    exact ih (fun q hq => h q (by simp [hq]))

lemma fileSummary_digest_count (fd : FileData) (c : String) :
    dictGet (fileSummary fd) ("digest_" ++ c) = (fileResults fd).count c := by
  rw [fileSummary, dictGet_append_ne _ _ _ _ (fun hh => digestKey_ne_testCount c hh.symm),
    dictGet_digestMap, fileCounters, dictGet_foldl_bump]
  simp [dictGet]

lemma fileSummary_test_count (fd : FileData) :
    dictGet (fileSummary fd) "test_count" = (fileResults fd).length := by
  rw [fileSummary, dictGet_append_self]
  · rw [fileCounters, sumVals_foldl_bump]
    simp [sumVals]
  · intro p hp
    rcases List.mem_map.1 hp with ⟨q, _, hq⟩
    rw [← hq]
    exact digestKey_ne_testCount q.1

/-- The text lines of one structured test definition never contain the
forbidden sentinel: the only line possibly emitted is guarded by the
filter. -/
lemma structEmit_text_clean {α : Type} (dumpsText : α → String) (dumpsBin : α → List Nat)
    (t : StructTest α) : ∀ l ∈ (structEmit dumpsText dumpsBin t).1, strContains l "$0" = false := by
  intro l hl
  simp only [structEmit] at hl
  rcases hi : t.ion with _ | v
  · simp [hi] at hl
  · rw [hi] at hl
    cases hc : strContains (dumpsText v) "$0"
    · simp [hc] at hl
      rw [hl]
      exact hc
    · simp [hc] at hl

lemma foldl_appendPair {β : Type} (f : β → List String × List (List Nat)) (ts : List β) :
    ∀ acc, ts.foldl (fun a t => appendPair a (f t)) acc
      = (acc.1 ++ (ts.map (fun t => (f t).1)).flatten,
         acc.2 ++ (ts.map (fun t => (f t).2)).flatten) := by
  induction ts with
  | nil =>
    intro acc
    simp
  | cons t ts ih =>
    intro acc
    rw [List.foldl_cons, ih]
    simp [appendPair, List.append_assoc]

lemma variant_flatten_text (d : String → List Nat) (vs : List String) :
    (vs.map (fun t => (variantEmit d t).1)).flatten
      = vs.filter (fun t => !strContains t "$0") := by
  induction vs with
  | nil => rfl
  | cons t ts ih =>
    rw [List.map_cons, List.flatten_cons, ih, List.filter_cons]
    cases h : strContains t "$0" <;> simp [variantEmit, h]

lemma variant_flatten_bin (d : String → List Nat) (vs : List String) :
    (vs.map (fun t => (variantEmit d t).2)).flatten
      = (vs.filter (fun t => !strContains t "$0")).map d := by
  induction vs with
  | nil => rfl
  | cons t ts ih =>
    rw [List.map_cons, List.flatten_cons, ih, List.filter_cons]
    cases h : strContains t "$0" <;> simp [variantEmit, h]

lemma naughty_fold (d : String → List Nat) (ls : List String) :
    ∀ acc, ls.foldl (fun acc line =>
        if rawSkipped line then acc
        else (test_strings_for line).foldl
          (fun acc2 t => appendPair acc2 (variantEmit d t)) acc) acc
      = (acc.1 ++ ((ls.filter (fun l => !rawSkipped l)).map
            (fun l => (test_strings_for l).filter (fun t => !strContains t "$0"))).flatten,
         acc.2 ++ (((ls.filter (fun l => !rawSkipped l)).map
            (fun l => (test_strings_for l).filter (fun t => !strContains t "$0"))).flatten).map d) := by
  induction ls with
  | nil =>
    intro acc
    simp
  | cons l ls ih =>
    intro acc
    rw [List.foldl_cons]
    cases h : rawSkipped l
    · rw [if_neg (by simp [h])]
      rw [foldl_appendPair (fun t => variantEmit d t), ih]
      simp [variant_flatten_text, variant_flatten_bin, List.filter_cons, h,
        List.append_assoc]
    · rw [if_pos (by simp [h]), ih]
      simp [List.filter_cons, h]

lemma naughty_text (d : String → List Nat) (rawLines : List String) :
    (generate_tests_big_list_of_naughty_strings d rawLines).1 = naughtyTextLines rawLines := by
  rw [generate_tests_big_list_of_naughty_strings, naughty_fold]
  simp [naughtyTextLines]

lemma naughty_bin (d : String → List Nat) (rawLines : List String) :
    (generate_tests_big_list_of_naughty_strings d rawLines).2
      = (naughtyTextLines rawLines).map d := by
  rw [generate_tests_big_list_of_naughty_strings, naughty_fold]
  simp [naughtyTextLines]

lemma struct_text_flatten {α : Type} (dumpsText : α → String) (dumpsBin : α → List Nat)
    (tests : List (StructTest α)) :
    (generate_tests_ion_hash_tests dumpsText dumpsBin tests).1
      = (tests.map (fun t => (structEmit dumpsText dumpsBin t).1)).flatten := by
  rw [generate_tests_ion_hash_tests, foldl_appendPair]
  simp

lemma compare_digests_cases (rows : List (String × String)) :
    ((distinctVals (rows.map (fun p => normalizeDigest p.2))).length = 0 →
      compare_digests rows
        = { digest := none, digests := none, result := "no_comparison" }) ∧
    (∀ d : String, distinctVals (rows.map (fun p => normalizeDigest p.2)) = [d] →
      compare_digests rows
        = { digest := some d, digests := none, result := "consistent" }) ∧
    (1 < (distinctVals (rows.map (fun p => normalizeDigest p.2))).length →
      compare_digests rows
        = { digest := none,
            digests := some (rows.map (fun p => (p.1, normalizeDigest p.2))),
            result := "inconsistent" }) := by
  have hmap : (rows.map (fun p => (p.1, normalizeDigest p.2))).map (fun p => p.2)
      = rows.map (fun p => normalizeDigest p.2) := by
    simp
  refine ⟨fun h0 => ?_, fun d hd => ?_, fun h2 => ?_⟩
  · simp only [compare_digests, hmap, h0]
    simp
  · simp only [compare_digests, hmap, hd]
    simp
  · have ha : ¬ (distinctVals (rows.map (fun p => normalizeDigest p.2))).length = 0 := by
      omega
    have hb : ¬ (distinctVals (rows.map (fun p => normalizeDigest p.2))).length = 1 := by
      omega
    simp only [compare_digests, hmap]
    rw [if_neg ha, if_neg hb]

/-! ## Claim theorems -/

/-- Claim C1: for the test value at ordinal `i`, the classifier builds the
implementation-to-digest mapping from line `i` of every implementation's
digest file and classifies by the set `D` of distinct mapped values: if
`D` is empty the result is `no_comparison`; if `D` has exactly one
element the result is `consistent` and the record carries that digest
under the `digest` key; if `D` has more than one element the result is
`inconsistent` and the record carries the full mapping under the
`digests` key. -/
theorem C1_classifier_by_distinct_digests (hashFiles : List (String × List String)) (i : Nat) :
    ((distinctVals ((rowsAt hashFiles i).map (fun p => normalizeDigest p.2))).length = 0 →
      compare_digests (rowsAt hashFiles i)
        = { digest := none, digests := none, result := "no_comparison" }) ∧
    (∀ d : String,
      distinctVals ((rowsAt hashFiles i).map (fun p => normalizeDigest p.2)) = [d] →
      compare_digests (rowsAt hashFiles i)
        = { digest := some d, digests := none, result := "consistent" }) ∧
    (1 < (distinctVals ((rowsAt hashFiles i).map (fun p => normalizeDigest p.2))).length →
      compare_digests (rowsAt hashFiles i)
        = { digest := none,
            digests := some ((rowsAt hashFiles i).map (fun p => (p.1, normalizeDigest p.2))),
            result := "inconsistent" }) :=
  compare_digests_cases (rowsAt hashFiles i)

/-- Witness for C1: two implementations reporting the same digest on line
0 are classified `consistent` with that shared digest recorded. -/
theorem C1_classifier_by_distinct_digests_witness :
    compare_digests (rowsAt [("ion-hash-java", ["abc"]), ("ion-hash-js", ["abc"])] 0)
      = { digest := some "abc", digests := none, result := "consistent" } :=
  (C1_classifier_by_distinct_digests [("ion-hash-java", ["abc"]), ("ion-hash-js", ["abc"])] 0).2.1
    "abc" (by decide)

/-- Claim C2 is false of the code: with a digest file holding fewer lines
than the corpus has values, the classifier does not signal an error — the
`readline()` past end-of-file yields the empty string, which participates
as an ordinary (substitute) digest value, and classification continues
normally (here: result `consistent` with digest the empty string). -/
theorem C2_counterexample :
    readLineAt [] 0 = "" ∧
    compare_digests (rowsAt [("ion-hash-java", [])] 0)
      = { digest := some "", digests := none, result := "consistent" } :=
  ⟨by decide, by decide⟩

/-- Claim C2 (amended): when an implementation's digest file has fewer
lines than the corpus, every read past its end yields the empty string,
which does not carry the unable-to-digest marker and therefore
participates as an ordinary digest value; classification proceeds without
any error. -/
theorem C2_eof_reads_empty_digest (impl : String) (lines : List String) (i : Nat)
    (h : lines.length ≤ i) :
    readLineAt lines i = "" ∧
    compare_digests (rowsAt [(impl, lines)] i)
      = { digest := some "", digests := none, result := "consistent" } := by
  have hr : readLineAt lines i = "" := by
    unfold readLineAt
    exact List.getD_eq_default _ _ h
  refine ⟨hr, ?_⟩
  have hn : normalizeDigest "" = "" := by decide
  have hd : distinctVals [""] = [""] := by decide
  simp [rowsAt, hr, compare_digests, hn, hd]

/-- Witness for the amended C2: a one-line digest file read at ordinal 2. -/
theorem C2_eof_reads_empty_digest_witness :
    readLineAt ["0f50"] 2 = "" ∧
    compare_digests (rowsAt [("ion-hash-python", ["0f50"])] 2)
      = { digest := some "", digests := none, result := "consistent" } :=
  C2_eof_reads_empty_digest "ion-hash-python" ["0f50"] 2 (by decide)

/-- Claim C3: no text line written to either corpus text stream contains
the two-character sequence `$0`; in the structured pipeline an inline
value whose rendered text contains `$0` contributes nothing to the text
stream and only its literal `'10n'` bytes (if any) to the binary stream,
and in the raw-string pipeline a variant containing `$0` is written to
neither stream. -/
theorem C3_sentinel_invariant {α : Type} (dumpsText : α → String) (dumpsBin : α → List Nat)
    (tests : List (StructTest α)) (dumpsBinStr : String → List Nat) (rawLines : List String)
    (t : StructTest α) (v : α) (variant : String) :
    (∀ l ∈ (generate_tests_ion_hash_tests dumpsText dumpsBin tests).1,
      strContains l "$0" = false) ∧
    (∀ l ∈ (generate_tests_big_list_of_naughty_strings dumpsBinStr rawLines).1,
      strContains l "$0" = false) ∧
    (t.ion = some v → strContains (dumpsText v) "$0" = true →
      structEmit dumpsText dumpsBin t = ([], t.bytes10n.toList)) ∧
    (strContains variant "$0" = true → variantEmit dumpsBinStr variant = ([], [])) := by
  refine ⟨?_, ?_, ?_, ?_⟩
  · intro l hl
    rw [struct_text_flatten] at hl
    rcases List.mem_flatten.1 hl with ⟨lis, hlis, hin⟩
    rcases List.mem_map.1 hlis with ⟨t2, _, ht2⟩
    exact structEmit_text_clean dumpsText dumpsBin t2 l (ht2 ▸ hin)
  · intro l hl
    rw [naughty_text] at hl
    rcases List.mem_flatten.1 hl with ⟨lis, hlis, hin⟩
    rcases List.mem_map.1 hlis with ⟨l2, _, hl2⟩
    have hmem := List.mem_filter.1 (hl2 ▸ hin)
    simpa using hmem.2
  · intro hion hc
    simp [structEmit, hion, hc]
  · intro hc
    simp [variantEmit, hc]

/-- Witness for C3: a rendered text equal to `$0` is dropped from both
streams of the structured pipeline (only the literal bytes remain in the
binary stream), and a `$0` variant is dropped by the raw pipeline. -/
theorem C3_sentinel_invariant_witness :
    structEmit (fun _ : Unit => "$0") (fun _ => ([] : List Nat)) ⟨some (), some [7]⟩
      = ([], [[7]]) ∧
    variantEmit modelStrDump "$0" = ([], []) := by
  have h := C3_sentinel_invariant (fun _ : Unit => "$0") (fun _ => ([] : List Nat)) []
    modelStrDump [] ⟨some (), some [7]⟩ () "$0"
  exact ⟨h.2.2.1 rfl (by decide), h.2.2.2 (by decide)⟩

/-- Claim C4 is false of the code: for the seed line `hello`, the first
emitted variant is the quoted-symbol text, and the bytes appended to the
binary stream are the serialization of that text itself as an Ion string
value — not the binary re-serialization of the symbol value the text
denotes. -/
theorem C4_counterexample :
    (generate_tests_big_list_of_naughty_strings modelStrDump ["hello"]).1.head?
      = some "'hello'" ∧
    (generate_tests_big_list_of_naughty_strings modelStrDump ["hello"]).2.head?
      = some (modelStrDump "'hello'") ∧
    modelStrDump "'hello'" ≠ modelDumpsBin (modelLoads "'hello'") :=
  ⟨by decide, by decide, by decide⟩

/-- Claim C4 (amended): in the raw-string pipeline the binary stream is
the text stream mapped through `ion.dumps(test_text, binary=True)` — the
binary serialization of each variant's text taken as a string value —
paired one-to-one and in emission order with the text lines. -/
theorem C4_binary_serializes_text_as_string (dumpsBinStr : String → List Nat)
    (rawLines : List String) :
    (generate_tests_big_list_of_naughty_strings dumpsBinStr rawLines).2
      = ((generate_tests_big_list_of_naughty_strings dumpsBinStr rawLines).1).map dumpsBinStr := by
  rw [naughty_bin, naughty_text]

/-- Claim C5: the Permutation Generator is a pure function of its input
line — two invocations on the same string produce identical ordered
variant lists. -/
theorem C5_generator_deterministic (s : String) :
    test_strings_for s = test_strings_for s := rfl

/-- Claim C6: for every raw string the generator returns the fixed-order
sequence described by the spec — five base encodings, five annotated
variants, five one-field-struct variants, the four raw forms exactly when
the seed is known valid, then the list literal, the parenthesized
sequence and the triple-annotated quoted-string — so the list has exactly
22 elements for a known-valid seed and 18 otherwise; the generator is a
total function, so generation never fails. -/
theorem C6_variant_sequence_shape (s : String) :
    test_strings_for s = specVariantSequence s ∧
    (test_strings_for s).length
      = (if (mkTestValue s).valid_ion = some true then 22 else 18) := by
  constructor
  · simp [test_strings_for, specVariantSequence, specBaseEncodings, specAnnotatedFive,
      specStructFive, specRawForms]
  · by_cases h : (mkTestValue s).valid_ion = some true <;>
      simp [test_strings_for, h]

/-- Claim C7: a pipeline runs exactly when its source file name is in the
filter list; both run when the filter is empty; the returned path list is
the concatenation structured-text, structured-binary, raw-text,
raw-binary. -/
theorem C7_pipeline_selection (outDir : String) (tf : List String) :
    (tf = [] →
      generate_tests outDir tf = ionHashTestsFileNames outDir ++ naughtyFileNames outDir) ∧
    (tf ≠ [] →
      generate_tests outDir tf =
        (if "ion_hash_test.ion" ∈ tf then ionHashTestsFileNames outDir else []) ++
        (if "big_list_of_naughty_strings.txt" ∈ tf then naughtyFileNames outDir else [])) := by
  constructor
  · intro h
    subst h
    simp [generate_tests]
  · intro h
    have hl : ¬ tf.length = 0 := by
      simpa [List.length_eq_zero] using h
    simp only [generate_tests]
    rw [if_neg hl]
    by_cases h1 : "ion_hash_test.ion" ∈ tf <;>
      by_cases h2 : "big_list_of_naughty_strings.txt" ∈ tf <;>
        simp [h1, h2]

/-- Witness for C7: the empty filter runs both pipelines in order; a
filter naming only the raw-string source runs only that pipeline. -/
theorem C7_pipeline_selection_witness :
    generate_tests "o" []
      = ["o/ion_hash_tests.ion", "o/ion_hash_tests.10n",
         "o/big_list_of_naughty_strings.ion", "o/big_list_of_naughty_strings.10n"] ∧
    generate_tests "o" ["big_list_of_naughty_strings.txt"]
      = ["o/big_list_of_naughty_strings.ion", "o/big_list_of_naughty_strings.10n"] := by
  constructor
  · rw [(C7_pipeline_selection "o" []).1 rfl]
    decide
  · rw [(C7_pipeline_selection "o" ["big_list_of_naughty_strings.txt"]).2 (by decide)]
    decide

/-- Claim C8 is false of the code in its final conjunct: the validity of
the seed `hello` is Unknown (`None`), so the element at index 15 — the
list variant, since no raw forms are inserted — is `listVariant` of the
seed, and that text is not the claimed string: the source always appends
a comma-space after the blob and then the raw form or the empty string,
so for `hello` the list variant ends in a trailing comma-space before the
closing bracket. -/
theorem C8_counterexample :
    (mkTestValue "hello").valid_ion = none ∧
    (test_strings_for "hello").getD 15 "" = listVariant (mkTestValue "hello") ∧
    (test_strings_for "hello").getD 15 ""
      ≠ "'hello'::['hello', \"hello\", '''hello''', \x7b\x7b\"hello\"\x7d\x7d, \x7b\x7baGVsbG8=\x7d\x7d]" :=
  ⟨by decide, by decide, by decide⟩

/-- Claim C8 (amended): for the seed `hello` the variant list has 18
elements (validity Unknown), the base encodings are exactly as claimed —
quoted-symbol, quoted-string, triple-quoted long-string, clob and blob —
and the list variant at index 15 is the claimed text with a trailing
comma-space before the closing bracket (the empty raw-form slot). -/
theorem C8_hello_example :
    (test_strings_for "hello").length = 18 ∧
    (test_strings_for "hello").getD 0 "" = "'hello'" ∧
    (test_strings_for "hello").getD 1 "" = "\"hello\"" ∧
    (test_strings_for "hello").getD 2 "" = "'''hello'''" ∧
    (test_strings_for "hello").getD 3 "" = "\x7b\x7b\"hello\"\x7d\x7d" ∧
    (test_strings_for "hello").getD 4 "" = "\x7b\x7baGVsbG8=\x7d\x7d" ∧
    (test_strings_for "hello").getD 15 ""
      = "'hello'::['hello', \"hello\", '''hello''', \x7b\x7b\"hello\"\x7d\x7d, \x7b\x7baGVsbG8=\x7d\x7d, ]" :=
  ⟨by decide, by decide, by decide, by decide, by decide, by decide, by decide⟩

/-- Claim C9: each per-file summary maps `digest_<classification>` to the
number of that file's records with that classification and `test_count`
to the number of classified values, which equals the sum of the file's
digest counters; the grand summary's entries are the sums of the
corresponding per-file values. -/
theorem C9_summary_counters (fd : FileData) (files : List FileData) (c : String) :
    dictGet (fileSummary fd) ("digest_" ++ c) = (fileResults fd).count c ∧
    dictGet (fileSummary fd) "test_count" = (fileResults fd).length ∧
    dictGet (fileSummary fd) "test_count" = sumVals (fileCounters fd) ∧
    dictGet (grandSummary files) ("digest_" ++ c)
      = (files.map (fun f2 => dictGet (fileSummary f2) ("digest_" ++ c))).sum ∧
    dictGet (grandSummary files) "test_count"
      = (files.map (fun f2 => dictGet (fileSummary f2) "test_count")).sum := by
  refine ⟨fileSummary_digest_count fd c, fileSummary_test_count fd, ?_, ?_, ?_⟩
  · rw [fileSummary_test_count, fileCounters, sumVals_foldl_bump]
    simp [sumVals]
  · rw [grandSummary, dictGet_append_ne _ _ _ _ (fun hh => digestKey_ne_testCount c hh.symm),
      dictGet_digestMap, grandCounters, dictGet_grand_fold]
    simp only [fileSummary_digest_count]
    simp [dictGet]
  · rw [grandSummary, dictGet_append_self]
    · rw [grandCounters, sumVals_grand_fold]
      simp only [fileSummary_test_count]
      simp [sumVals]
    · intro p hp
      rcases List.mem_map.1 hp with ⟨q, _, hq⟩
      rw [← hq]
      exact digestKey_ne_testCount q.1

/-- Claim C10: a digest line is stripped of trailing whitespace; if the
stripped line starts with `[unable to digest` it is normalized to the
exact value `[unable to digest]`, so two implementations that both fail
on the same value compare equal and are classified `consistent` whatever
follows the marker; a line without the marker participates as its literal
stripped text. -/
theorem C10_unable_digest_normalization (a b l1 l2 : String)
    (h1 : strStartsWith (rstrip l1) "[unable to digest" = true)
    (h2 : strStartsWith (rstrip l2) "[unable to digest" = true) :
    normalizeDigest l1 = "[unable to digest]" ∧
    normalizeDigest l2 = "[unable to digest]" ∧
    compare_digests [(a, l1), (b, l2)]
      = { digest := some "[unable to digest]", digests := none, result := "consistent" } ∧
    ∀ l3 : String, strStartsWith (rstrip l3) "[unable to digest" = false →
      normalizeDigest l3 = rstrip l3 := by
  have n1 : normalizeDigest l1 = "[unable to digest]" := by
    simp [normalizeDigest, h1]
  have n2 : normalizeDigest l2 = "[unable to digest]" := by
    simp [normalizeDigest, h2]
  refine ⟨n1, n2, ?_, fun l3 h3 => by simp [normalizeDigest, h3]⟩
  have hset : distinctVals ["[unable to digest]", "[unable to digest]"]
      = ["[unable to digest]"] := by decide
  simp [compare_digests, n1, n2, hset]

/-- Witness for C10: two different failure messages from two
implementations normalize to the shared sentinel and classify as
`consistent`. -/
theorem C10_unable_digest_normalization_witness :
    normalizeDigest "[unable to digest: java error]  " = "[unable to digest]" ∧
    compare_digests [("ion-hash-java", "[unable to digest: java error]  "),
        ("ion-hash-js", "[unable to digest (crash)]")]
      = { digest := some "[unable to digest]", digests := none, result := "consistent" } := by
  have h := C10_unable_digest_normalization "ion-hash-java" "ion-hash-js"
    "[unable to digest: java error]  " "[unable to digest (crash)]" (by decide) (by decide)
  exact ⟨h.1, h.2.2.1⟩

end IonHashTestDriver
